import Mathlib

/-!
Verification of the Thunderbird-Metrics core: version parsing and ordering,
compatibility evaluation, monthly bucket enumeration, bucketed aggregation,
and top-N ranking, shallowly embedded from `src/addons.py` and
`src/crash_stats.py`.

Python `re.match` on the version grammar
`^([0-9]+|\x2a)(?:\.([0-9]+|\x2a)(?:\.([0-9]+|\x2a)(?:\.([0-9]+|\x2a))?)?)?(?:([ab])([0-9]+)?)?(?:(pre)([0-9])?)?`
is embedded as a deterministic recursive-descent matcher.  Every construct
after group 1 is optional and each optional group either matches wholly or
consumes nothing (a dotted group needs a dot followed by a number, the stage
group needs an `a`/`b` character, the pre group needs the literal `pre`), and
no token that follows a greedy digit run can start with a digit, so greedy
maximal-munch with whole-group backtracking is exactly the regex semantics.
The pattern is unanchored at the right end, so trailing characters are
ignored, as in the source.  The crash-stats pattern differs only in lacking
the `\x2a` alternates, so the matcher is parameterised by a `star` flag.

Exceptions (Python `KeyError` on a missing `compatibility` block,
`TypeError` when `parse_version` returned `None` and is then compared, and
`ZeroDivisionError` on a zero denominator) are embedded as `Option`/`Except`
failure values.
-/

/-- Greedy run of ASCII digits: the pair (longest digit prefix, rest),
embedding the regex token `[0-9]+` / `[0-9]*` munching. -/
def takeDigits : List Char → List Char × List Char
  | [] => ([], [])
  | c :: rest =>
    if c.isDigit then (c :: (takeDigits rest).1, (takeDigits rest).2)
    else ([], c :: rest)

/-- Matches `([0-9]+|\x2a)` when `star` is true and `([0-9]+)` when it is
false, returning the group text and the remaining input; `none` when the
group cannot match here. -/
def matchNumStar (star : Bool) (s : List Char) : Option (String × List Char) :=
  match s with
  | [] => none
  | c :: rest =>
    if star ∧ c = '*' then some ("*", rest)
    else
      let t := takeDigits (c :: rest)
      if t.1 = [] then none else some (⟨t.1⟩, t.2)

/-- One optional dotted numeric group `(?:\.([0-9]+|\x2a) ...)?`: a dot must
be followed by a number, otherwise the whole group is skipped without
consuming anything. -/
def matchDotNum (star : Bool) (s : List Char) : Option (String × List Char) :=
  match s with
  | '.' :: rest => matchNumStar star rest
  | _ => none

/-- The nested optional groups for minor, micro and patch. -/
def matchDots (star : Bool) (s : List Char) :
    Option String × Option String × Option String × List Char :=
  match matchDotNum star s with
  | none => (none, none, none, s)
  | some (g2, s2) =>
    match matchDotNum star s2 with
    | none => (some g2, none, none, s2)
    | some (g3, s3) =>
      match matchDotNum star s3 with
      | none => (some g2, some g3, none, s3)
      | some (g4, s4) => (some g2, some g3, some g4, s4)

/-- The optional stage group `(?:([ab])([0-9]+)?)?`. -/
def matchStage (s : List Char) : Option String × Option String × List Char :=
  match s with
  | [] => (none, none, [])
  | c :: rest =>
    if c = 'a' ∨ c = 'b' then
      let t := takeDigits rest
      (some ⟨[c]⟩, if t.1 = [] then none else some ⟨t.1⟩, t.2)
    else (none, none, c :: rest)

/-- The optional trailing group `(?:(pre)([0-9])?)?`; note the single-digit
`[0-9]` for the pre version. -/
def matchPre (s : List Char) : Option String × Option String :=
  match s with
  | 'p' :: 'r' :: 'e' :: rest =>
    (some "pre",
      match rest with
      | [] => none
      | d :: _ => if d.isDigit then some ⟨[d]⟩ else none)
  | _ => (none, none)

/-- The eight capture groups of `VERSION_PATTERN`, `none` = unmatched. -/
structure VGroups where
  g1 : String
  g2 : Option String
  g3 : Option String
  g4 : Option String
  g5 : Option String
  g6 : Option String
  g7 : Option String
  g8 : Option String
deriving DecidableEq, Repr

/-- `VERSION_PATTERN.match(version)`: `none` iff the mandatory first group
cannot match; everything after it is optional, and trailing input is
ignored (the pattern has no right anchor). -/
def match_version (star : Bool) (s : List Char) : Option VGroups :=
  match matchNumStar star s with
  | none => none
  | some g1s =>
    let d := matchDots star g1s.2
    let st := matchStage d.2.2.2
    let pr := matchPre st.2.2
    some ⟨g1s.1, d.1, d.2.1, d.2.2.1, st.1, st.2.1, pr.1, pr.2⟩

/-- Python `int` on a string of ASCII digits. -/
def pyInt (s : String) : Nat :=
  s.data.foldl (fun n c => n * 10 + (c.toNat - 48)) 0

/-- `VERSION_PART_MAX = (1 << 16) - 1`. -/
def VERSION_PART_MAX : Nat := (1 <<< 16) - 1

/-- The `Version` namedtuple of `addons.py`: the absent stage markers have
already been replaced by the string `"z"` in `parse_version`. -/
structure Version where
  major : Nat
  minor : Nat
  micro : Nat
  patch : Nat
  alpha_beta : String
  alpha_beta_ver : Nat
  pre : String
  pre_ver : Nat
deriving DecidableEq, Repr

/-- `VERSION_PART_MAX if part == "*" else int(part)` for a present group,
`0` for an absent one. -/
def numPart : Option String → Nat
  | some t => if t = "*" then VERSION_PART_MAX else pyInt t
  | none => 0

/-- `int(part) if part else 0`. -/
def optInt : Option String → Nat
  | some t => pyInt t
  | none => 0

/-- `parse_version` of `addons.py`: wildcard segments map to
`VERSION_PART_MAX`, missing numeric segments default to `0`, missing stage
markers default to `"z"`. -/
def parse_version (version : String) : Option Version :=
  match match_version true version.data with
  | none => none
  | some g =>
    some
      { major := if g.g1 = "*" then VERSION_PART_MAX else pyInt g.g1
        minor := numPart g.g2
        micro := numPart g.g3
        patch := numPart g.g4
        alpha_beta := g.g5.getD "z"
        alpha_beta_ver := optInt g.g6
        pre := g.g7.getD "z"
        pre_ver := optInt g.g8 }

/-- The `Version` namedtuple of `crash_stats.py`: no wildcards and the stage
markers are kept as optional strings (no `or "z"` defaulting). -/
structure CrashVersion where
  major : Nat
  minor : Nat
  micro : Nat
  patch : Nat
  alpha_beta : Option String
  alpha_beta_ver : Nat
  pre : Option String
  pre_ver : Nat
deriving DecidableEq, Repr

/-- `parse_version` of `crash_stats.py` (integers only, no wildcards). -/
def crash_parse_version (version : String) : Option CrashVersion :=
  match match_version false version.data with
  | none => none
  | some g =>
    some
      { major := pyInt g.g1
        minor := optInt g.g2
        micro := optInt g.g3
        patch := optInt g.g4
        alpha_beta := g.g5
        alpha_beta_ver := optInt g.g6
        pre := g.g7
        pre_ver := optInt g.g8 }

/-- Python string `<`: lexicographic comparison of code points. -/
def pyStrLt : List Char → List Char → Bool
  | [], [] => false
  | [], _ :: _ => true
  | _ :: _, [] => false
  | a :: as, b :: bs =>
    if a.toNat < b.toNat then true
    else if b.toNat < a.toNat then false
    else pyStrLt as bs

/-- Python tuple `<=` on two `Version` values: lexicographic over the eight
fields, numeric fields by `≤`/`<` on integers, stage fields by code-point
string comparison. -/
def verLe (a b : Version) : Bool :=
  if a.major ≠ b.major then decide (a.major < b.major)
  else if a.minor ≠ b.minor then decide (a.minor < b.minor)
  else if a.micro ≠ b.micro then decide (a.micro < b.micro)
  else if a.patch ≠ b.patch then decide (a.patch < b.patch)
  else if a.alpha_beta ≠ b.alpha_beta then pyStrLt a.alpha_beta.data b.alpha_beta.data
  else if a.alpha_beta_ver ≠ b.alpha_beta_ver then decide (a.alpha_beta_ver < b.alpha_beta_ver)
  else if a.pre ≠ b.pre then pyStrLt a.pre.data b.pre.data
  else decide (a.pre_ver ≤ b.pre_ver)

/-- Python tuple `<` on two `Version` values. -/
def verLt (a b : Version) : Bool :=
  if a.major ≠ b.major then decide (a.major < b.major)
  else if a.minor ≠ b.minor then decide (a.minor < b.minor)
  else if a.micro ≠ b.micro then decide (a.micro < b.micro)
  else if a.patch ≠ b.patch then decide (a.patch < b.patch)
  else if a.alpha_beta ≠ b.alpha_beta then pyStrLt a.alpha_beta.data b.alpha_beta.data
  else if a.alpha_beta_ver ≠ b.alpha_beta_ver then decide (a.alpha_beta_ver < b.alpha_beta_ver)
  else if a.pre ≠ b.pre then pyStrLt a.pre.data b.pre.data
  else decide (a.pre_ver < b.pre_ver)

/-- A `{min, max}` compatibility block, as the two version strings found
under `addon_version["compatibility"][APP]`. -/
structure CompatRange where
  min : String
  max : String
deriving DecidableEq, Repr

/-- One add-on version entry, reduced to the field the compatibility code
reads: `compat = none` embeds `APP not in addon_version["compatibility"]`. -/
structure AVersionEntry where
  compat : Option CompatRange
deriving DecidableEq, Repr

/-- `is_compatible(version, addon_version)` from `addons.py`:
`parse_version(compat["min"]) <= version and parse_version(compat["max"]) >= version`.
`none` embeds an exception: `KeyError` when the `APP` compatibility block is
missing, or `TypeError` when a range bound fails to parse (Python would
compare `None` with a tuple).  The `and` short-circuits, so the `max` bound
is only parsed when the `min` bound is satisfied, as in the source. -/
def is_compatible (version : Version) (addon_version : AVersionEntry) : Option Bool :=
  match addon_version.compat with
  | none => none
  | some c =>
    match parse_version c.min with
    | none => none
    | some mn =>
      if verLe mn version then
        match parse_version c.max with
        | none => none
        | some mx => some (verLe version mx)
      else some false

/-- Calendar day, embedding a Python `datetime` at day resolution (the
fields the bucketing code compares and extracts). -/
structure PyDate where
  year : Nat
  month : Nat
  day : Nat
deriving DecidableEq, Repr

/-- A monthly bucket key `(date.year, date.month)`. -/
structure YM where
  year : Nat
  month : Nat
deriving DecidableEq, Repr

/-- An add-on record, reduced to the fields the core reads.
`average_daily_users = none` embeds a record without that key (so
`operator.itemgetter` would raise `KeyError`); `categories = none` embeds
`APP not in addon["categories"]`. -/
structure Addon where
  slug : String
  is_experimental : Bool
  average_daily_users : Option Int
  created : PyDate
  categories : Option (List String)
  current_version : AVersionEntry
  versions : List AVersionEntry
deriving DecidableEq, Repr

/-- The month-increment step of the date loop in `main`:
`month = date.month + 1; if month > 12: year += 1; month -= 12`. -/
def nextMonth (d : YM) : YM :=
  if d.month + 1 > 12 then ⟨d.year + 1, d.month + 1 - 12⟩ else ⟨d.year, d.month + 1⟩

/-- `datetime(d.year, d.month, 1) < datetime(e.year, e.month, e.day)`:
lexicographic comparison of the date fields, with day 1 on the left, as in
the loop guard `date < end_date` (the loop's dates all have day 1). -/
def monthStartLt (d : YM) (e : PyDate) : Bool :=
  if d.year ≠ e.year then decide (d.year < e.year)
  else if d.month ≠ e.month then decide (d.month < e.month)
  else decide (1 < e.day)

/-- The `while date < end_date` loop of `main` (lines 283-292 of
`addons.py`), with an explicit iteration budget. -/
def enumerate_dates_fuel : Nat → YM → PyDate → List YM
  | 0, _, _ => []
  | fuel + 1, d, e =>
    if monthStartLt d e then d :: enumerate_dates_fuel fuel (nextMonth d) e else []

/-- Linear month index of a bucket. -/
def ymIdx (d : YM) : Nat := d.year * 12 + d.month

/-- Month-bucket enumeration over `[start, end)`: the loop with a budget
that provably exceeds the number of iterations, so it computes exactly what
the unbounded Python loop computes. -/
def enumerate_dates (d : YM) (e : PyDate) : List YM :=
  enumerate_dates_fuel (e.year * 12 + e.month + 1 - ymIdx d) d e

/-- `d` advanced by `i` calendar months. -/
def addMonths (d : YM) : Nat → YM
  | 0 => d
  | i + 1 => addMonths (nextMonth d) i

/-- The record's bucket key `(date.year, date.month)`. -/
def bucketOf (d : PyDate) : YM := ⟨d.year, d.month⟩

/-- One step of `created.setdefault((date.year, date.month), []).append(addon)`:
the bucket map after appending `a` to its bucket. -/
def addToBuckets (m : YM → List Addon) (a : Addon) : YM → List Addon :=
  fun b => if b = bucketOf a.created then m b ++ [a] else m b

/-- The dict built by the `for addon in addons` loop of `main`, as a map
from bucket to the list of records assigned to it (in scan order);
`created.get(adate, [])` is embedding-level function application, absent
buckets give `[]`. -/
def created_buckets (addons : List Addon) : YM → List Addon :=
  addons.foldl addToBuckets (fun _ => [])

/-- The category fan-out the per-bucket `Counter` consumes:
`(category for addon in acreated if APP in addon["categories"] for category in addon["categories"][APP])`. -/
def category_occurrences (addons : List Addon) : List String :=
  (addons.map fun a => a.categories.getD []).flatten

/-- A single per-category count of that `Counter`. -/
def byCategory (addons : List Addon) (c : String) : Nat :=
  (category_occurrences addons).count c

/-- `addons_count = len(addons)`: the unconditional total. -/
def addons_count (addons : List Addon) : Nat := addons.length

/-- `experimental_count = sum(1 for addon in addons if addon["is_experimental"])`. -/
def experimental_count (addons : List Addon) : Nat :=
  (addons.filter (fun a => a.is_experimental)).length

/-- Python's `count / total` on integers: true division, raising
`ZeroDivisionError` (embedded as `Except.error`) when the denominator is
zero. -/
def percent_ratio (count total : Nat) : Except String Rat :=
  if total = 0 then Except.error "ZeroDivisionError"
  else Except.ok ((count : Rat) / (total : Rat))

/-- The report line `experimental_count / addons_count` (line 395 of
`addons.py`); the other percentage rows have the same shape. -/
def experimental_percent (addons : List Addon) : Except String Rat :=
  percent_ratio (experimental_count addons) (addons_count addons)

/-- `addon_versions[...] or (addon["current_version"],)`: the version list
consulted by the any-version count, falling back to the current version
only when the fetched history list is empty (Python falsiness of `[]`). -/
def candidate_versions (a : Addon) : List AVersionEntry :=
  if a.versions.isEmpty then [a.current_version] else a.versions

/-- The generator `any(is_compatible(aversion, addon_version) for addon_version in ...
if APP in addon_version["compatibility"])` (lines 413-419 of `addons.py`):
entries without the `APP` block are skipped by the guard; an exception
inside `is_compatible` aborts the whole evaluation (`none`). -/
def any_compatible (v : Version) : List AVersionEntry → Option Bool
  | [] => some false
  | e :: rest =>
    if e.compat.isSome then
      match is_compatible v e with
      | none => none
      | some true => some true
      | some false => any_compatible v rest
    else any_compatible v rest

/-- The spec's `isCompatibleWithAny(target, record, appKey)`, as the code
computes it for one add-on inside the `any_count` sum. -/
def isCompatibleWithAny (v : Version) (a : Addon) : Option Bool :=
  any_compatible v (candidate_versions a)

/-- `any(is_compatible(aversion, addon["current_version"]) for aversion, _, _ in aversions)`
(line 372 of `addons.py`): no guard on the presence of the `APP` block, so a
record whose current version lacks it raises (`none`). -/
def addon_passes (a : Addon) : List Version → Option Bool
  | [] => some false
  | v :: rest =>
    match is_compatible v a.current_version with
    | none => none
    | some true => some true
    | some false => addon_passes a rest

/-- The filter `items = [addon for addon in addons if any(...)]` (lines
371-373 of `addons.py`); a raised exception aborts the comprehension. -/
def compatible_items (vs : List Version) : List Addon → Option (List Addon)
  | [] => some []
  | a :: l =>
    match addon_passes a vs with
    | none => none
    | some true => (compatible_items vs l).map (fun r => a :: r)
    | some false => compatible_items vs l

/-- Stable descending insertion: `a` is earlier in the input than every
element of `l`, so it goes before the first element whose key does not
exceed `a`'s. -/
def insertDesc {α : Type} (key : α → Int) (a : α) : List α → List α
  | [] => [a]
  | b :: l => if key b ≤ key a then a :: b :: l else b :: insertDesc key a l

/-- `sorted(items, key=..., reverse=True)`.  Python's sort is stable and
descending under `reverse=True`; a stable descending sort is the unique
permutation that is sorted by the key and preserves the input order of
equal-key elements, so this insertion sort is extensionally the same
function. -/
def sortDesc {α : Type} (key : α → Int) : List α → List α
  | [] => []
  | a :: l => insertDesc key a (sortDesc key l)

/-- The ranking pattern of `main`: sort descending by the key, then keep the
first `n` rows (the `if i >= n: break` truncation). -/
def topN {α : Type} (key : α → Int) (n : Nat) (l : List α) : List α :=
  (sortDesc key l).take n

/-- The key extraction `operator.itemgetter("average_daily_users")` applied
to every record before sorting: CPython's `sorted` computes all keys first
and the first missing key raises `KeyError` (`none`). -/
def collect_keys : List Addon → Option (List Int)
  | [] => some []
  | a :: l =>
    match a.average_daily_users with
    | none => none
    | some k => (collect_keys l).map (fun r => k :: r)

/-- `sorted(items, key=operator.itemgetter("average_daily_users"), reverse=True)`
truncated to `n` rows (lines 573-589 of `addons.py`); `none` embeds the
`KeyError` raised when a record lacks the field. -/
def top_by_users (n : Nat) (addons : List Addon) : Option (List Addon) :=
  match collect_keys addons with
  | none => none
  | some _ => some (topN (fun a => a.average_daily_users.getD 0) n addons)

/-- The target version `10.0` used in the spec's own examples. -/
def v10 : Version := ⟨10, 0, 0, 0, "z", 0, "z", 0⟩

/-- A range every reasonable version satisfies. -/
def wideRange : CompatRange := ⟨"1.0", "*"⟩

/-- A range `10.0` does not satisfy. -/
def highRange : CompatRange := ⟨"99.0", "*"⟩

/-- A neutral record all concrete examples are built from. -/
def baseAddon : Addon :=
  { slug := "base"
    is_experimental := false
    average_daily_users := some 0
    created := ⟨2024, 1, 15⟩
    categories := none
    current_version := ⟨some wideRange⟩
    versions := [] }

/-- Current version compatible with `10.0`, but the (non-empty) version
history contains only an incompatible entry. -/
def recCurrentGood : Addon :=
  { baseAddon with current_version := ⟨some wideRange⟩, versions := [⟨some highRange⟩] }

/-- A record whose current version lacks the `APP` compatibility block and
whose history list is empty. -/
def recNoCompat : Addon :=
  { baseAddon with current_version := ⟨none⟩, versions := [] }

/-- Current version compatible with `10.0`, but the (non-empty) version
history has zero qualifying entries: its only entry lacks the app key. -/
def recNoQualifying : Addon :=
  { baseAddon with current_version := ⟨some wideRange⟩, versions := [⟨none⟩] }

/-- A record without the `average_daily_users` field. -/
def recNoUsers : Addon :=
  { baseAddon with slug := "nousers", average_daily_users := none }

/-- Ranker example records: A and B tie on 5 users, C has 9. -/
def recA : Addon := { baseAddon with slug := "A", average_daily_users := some 5 }

/-- Second ranker example record. -/
def recB : Addon := { baseAddon with slug := "B", average_daily_users := some 5 }

/-- Third ranker example record. -/
def recC : Addon := { baseAddon with slug := "C", average_daily_users := some 9 }

/-- A record carrying two categories, created in January 2024. -/
def recTwoCats : Addon :=
  { baseAddon with slug := "twocats", categories := some ["mail", "news"] }

/-- A record flagged experimental. -/
def recExp : Addon := { baseAddon with slug := "exp", is_experimental := true }

example : parse_version "10.0b1" = some ⟨10, 0, 0, 0, "b", 1, "z", 0⟩ := by decide
example : parse_version "10.0pre1" = some ⟨10, 0, 0, 0, "z", 0, "pre", 1⟩ := by decide
example : parse_version "*" = some ⟨65535, 0, 0, 0, "z", 0, "z", 0⟩ := by decide
example : parse_version "1.2.3.4.5" = parse_version "1.2.3.4" := by decide
example : parse_version "1.0junk" = parse_version "1.0" := by decide
example : parse_version "x1.0" = none := by decide
example : crash_parse_version "128.0a1" = some ⟨128, 0, 0, 0, some "a", 1, none, 0⟩ := by decide
example : crash_parse_version "*" = none := by decide

lemma ymIdx_nextMonth (d : YM) : ymIdx (nextMonth d) = ymIdx d + 1 := by
  simp only [nextMonth, ymIdx]
  split
  · next h => simp only []; omega
  · simp only []; omega

lemma nextMonth_month_ge (d : YM) : 1 ≤ (nextMonth d).month := by
  simp only [nextMonth]
  split <;> simp <;> omega

lemma nextMonth_month_le (d : YM) (h : d.month ≤ 12) : (nextMonth d).month ≤ 12 := by
  simp only [nextMonth]
  split <;> simp <;> omega

lemma monthStartLt_iff (d : YM) (e : PyDate) (hd1 : 1 ≤ d.month) (hd2 : d.month ≤ 12)
    (he1 : 1 ≤ e.month) (he2 : e.month ≤ 12) :
    monthStartLt d e = true ↔
      ymIdx d < e.year * 12 + e.month + (if 1 < e.day then 1 else 0) := by
  simp only [monthStartLt, ymIdx]
  by_cases hday : 1 < e.day
  · simp only [if_pos hday]
    split_ifs with h1 h2 <;> simp only [decide_eq_true_eq] <;> omega
  · simp only [if_neg hday]
    split_ifs with h1 h2 <;> simp only [decide_eq_true_eq] <;> omega

lemma addMonths_succ (d : YM) (i : Nat) : addMonths d (i + 1) = addMonths (nextMonth d) i := rfl

lemma ymIdx_addMonths (i : Nat) : ∀ d : YM, ymIdx (addMonths d i) = ymIdx d + i := by
  induction i with
  | zero => intro d; rfl
  | succ j ih =>
    intro d
    rw [addMonths_succ, ih (nextMonth d), ymIdx_nextMonth]
    omega

lemma enumerate_dates_fuel_eq (fuel : Nat) :
    ∀ (k : Nat) (d : YM) (e : PyDate), k ≤ fuel →
      1 ≤ d.month → d.month ≤ 12 → 1 ≤ e.month → e.month ≤ 12 →
      k = e.year * 12 + e.month + (if 1 < e.day then 1 else 0) - ymIdx d →
      enumerate_dates_fuel fuel d e = (List.range k).map (addMonths d) := by
  induction fuel with
  | zero =>
    intro k d e hk _ _ _ _ _
    interval_cases k
    simp [enumerate_dates_fuel]
  | succ f ih =>
    intro k d e hk hd1 hd2 he1 he2 hkeq
    have hiff := monthStartLt_iff d e hd1 hd2 he1 he2
    match k, hkeq with
    | 0, hkeq =>
      have hnot : ¬ (monthStartLt d e = true) := fun h => by
        have := hiff.mp h
        omega
      rw [enumerate_dates_fuel, if_neg hnot]
      rfl
    | j + 1, hkeq =>
      have hlt : monthStartLt d e = true := hiff.mpr (by omega)
      rw [enumerate_dates_fuel, if_pos hlt]
      rw [ih j (nextMonth d) e (by omega) (nextMonth_month_ge d) (nextMonth_month_le d hd2)
        he1 he2 (by rw [ymIdx_nextMonth]; omega)]
      rw [List.range_succ_eq_map, List.map_cons, List.map_map]
      rfl

lemma foldl_addToBuckets (l : List Addon) :
    ∀ (m : YM → List Addon) (b : YM),
      (l.foldl addToBuckets m) b =
        m b ++ (l.filter (fun a => decide (bucketOf a.created = b))) := by
  induction l with
  | nil => intro m b; simp
  | cons a l ih =>
    intro m b
    rw [List.foldl_cons, ih (addToBuckets m a) b, List.filter_cons]
    by_cases h : bucketOf a.created = b
    · simp [addToBuckets, h]
    · have h2 : ¬ b = bucketOf a.created := fun hb => h hb.symm
      simp [addToBuckets, h, h2]

lemma created_buckets_eq (addons : List Addon) (b : YM) :
    created_buckets addons b = addons.filter (fun a => decide (bucketOf a.created = b)) := by
  rw [created_buckets, foldl_addToBuckets]
  rfl

lemma insertDesc_nil {α : Type} (key : α → Int) (a : α) : insertDesc key a [] = [a] := rfl

lemma insertDesc_cons {α : Type} (key : α → Int) (a b : α) (l : List α) :
    insertDesc key a (b :: l) =
      if key b ≤ key a then a :: b :: l else b :: insertDesc key a l := rfl

lemma insertDesc_mem {α : Type} (key : α → Int) (a x : α) :
    ∀ l : List α, x ∈ insertDesc key a l → x = a ∨ x ∈ l := by
  intro l
  induction l with
  | nil =>
    intro h
    rw [insertDesc_nil, List.mem_singleton] at h
    exact Or.inl h
  | cons b l ih =>
    intro h
    rw [insertDesc_cons] at h
    split at h
    · rcases List.mem_cons.mp h with h1 | h1
      · exact Or.inl h1
      · exact Or.inr h1
    · rcases List.mem_cons.mp h with h1 | h1
      · exact Or.inr (h1 ▸ List.mem_cons_self b l)
      · rcases ih h1 with h2 | h2
        · exact Or.inl h2
        · exact Or.inr (List.mem_cons_of_mem b h2)

lemma insertDesc_pairwise {α : Type} (key : α → Int) (a : α) :
    ∀ l : List α, l.Pairwise (fun x y => key y ≤ key x) →
      (insertDesc key a l).Pairwise (fun x y => key y ≤ key x) := by
  intro l
  induction l with
  | nil => intro _; simp [insertDesc_nil]
  | cons b l ih =>
    intro h
    rw [List.pairwise_cons] at h
    rw [insertDesc_cons]
    split
    · next hba =>
      rw [List.pairwise_cons]
      constructor
      · intro x hx
        rcases List.mem_cons.mp hx with h1 | h1
        · exact h1 ▸ hba
        · exact le_trans (h.1 x h1) hba
      · exact List.pairwise_cons.mpr h
    · next hba =>
      rw [List.pairwise_cons]
      constructor
      · intro x hx
        rcases insertDesc_mem key a x l hx with h1 | h1
        · exact h1 ▸ le_of_lt (lt_of_not_le hba)
        · exact h.1 x h1
      · exact ih h.2

lemma sortDesc_pairwise {α : Type} (key : α → Int) :
    ∀ l : List α, (sortDesc key l).Pairwise (fun x y => key y ≤ key x) := by
  intro l
  induction l with
  | nil => simp [sortDesc]
  | cons a l ih => exact insertDesc_pairwise key a (sortDesc key l) ih

lemma insertDesc_length {α : Type} (key : α → Int) (a : α) :
    ∀ l : List α, (insertDesc key a l).length = l.length + 1 := by
  intro l
  induction l with
  | nil => rfl
  | cons b l ih =>
    rw [insertDesc_cons]
    split
    · simp
    · simp only [List.length_cons, ih]

lemma sortDesc_length {α : Type} (key : α → Int) :
    ∀ l : List α, (sortDesc key l).length = l.length := by
  intro l
  induction l with
  | nil => rfl
  | cons a l ih => rw [sortDesc, insertDesc_length, ih, List.length_cons]

lemma insertDesc_filter_pos {α : Type} (key : α → Int) (a : α) (k : Int) (hk : key a = k) :
    ∀ l : List α,
      (insertDesc key a l).filter (fun x => decide (key x = k)) =
        a :: l.filter (fun x => decide (key x = k)) := by
  intro l
  induction l with
  | nil => simp [insertDesc_nil, hk]
  | cons b l ih =>
    rw [insertDesc_cons]
    split
    · simp [List.filter_cons, hk]
    · next hba =>
      have hbk : ¬ key b = k := fun hbk => hba (by rw [hbk, hk])
      simp [List.filter_cons, hbk, ih]

lemma insertDesc_filter_neg {α : Type} (key : α → Int) (a : α) (k : Int) (hk : ¬ key a = k) :
    ∀ l : List α,
      (insertDesc key a l).filter (fun x => decide (key x = k)) =
        l.filter (fun x => decide (key x = k)) := by
  intro l
  induction l with
  | nil => simp [insertDesc_nil, hk]
  | cons b l ih =>
    rw [insertDesc_cons]
    split
    · simp [List.filter_cons, hk]
    · simp only [List.filter_cons, ih]

lemma sortDesc_filter {α : Type} (key : α → Int) (k : Int) :
    ∀ l : List α,
      (sortDesc key l).filter (fun x => decide (key x = k)) =
        l.filter (fun x => decide (key x = k)) := by
  intro l
  induction l with
  | nil => rfl
  | cons a l ih =>
    rw [sortDesc]
    by_cases hk : key a = k
    · rw [insertDesc_filter_pos key a k hk, ih, List.filter_cons, if_pos (by simp [hk])]
    · rw [insertDesc_filter_neg key a k hk, ih, List.filter_cons, if_neg (by simp [hk])]

lemma collect_keys_eq_none :
    ∀ l : List Addon, collect_keys l = none ↔ ∃ a, a ∈ l ∧ a.average_daily_users = none := by
  intro l
  induction l with
  | nil => simp [collect_keys]
  | cons a l ih =>
    rw [collect_keys]
    cases ha : a.average_daily_users with
    | none => simp [ha]
    | some k =>
      simp only [Option.map_eq_none', ih, List.mem_cons]
      constructor
      · rintro ⟨x, hx, hnone⟩
        exact ⟨x, Or.inr hx, hnone⟩
      · rintro ⟨x, hx | hx, hnone⟩
        · rw [hx, ha] at hnone
          exact absurd hnone (by simp)
        · exact ⟨x, hx, hnone⟩

lemma any_compatible_some_true (v : Version) :
    ∀ l : List AVersionEntry,
      (∀ e, e ∈ l → e.compat.isSome = true → is_compatible v e ≠ none) →
      (any_compatible v l = some true ↔ ∃ e, e ∈ l ∧ is_compatible v e = some true) := by
  intro l
  induction l with
  | nil => simp [any_compatible]
  | cons e l ih =>
    intro hdef
    have ihl := ih (fun x hx => hdef x (List.mem_cons_of_mem e hx))
    rw [any_compatible]
    cases hc : e.compat with
    | none =>
      have : is_compatible v e = none := by rw [is_compatible, hc]
      simp only [hc, Option.isSome_none, Bool.false_eq_true, if_false, ihl, List.mem_cons]
      constructor
      · rintro ⟨x, hx, hcomp⟩
        exact ⟨x, Or.inr hx, hcomp⟩
      · rintro ⟨x, hx | hx, hcomp⟩
        · rw [hx, this] at hcomp
          exact absurd hcomp (by simp)
        · exact ⟨x, hx, hcomp⟩
    | some c =>
      have hs : e.compat.isSome = true := by rw [hc]; rfl
      simp only [hc, Option.isSome_some, if_true]
      cases hcomp : is_compatible v e with
      | none => exact absurd hcomp (hdef e (List.mem_cons_self e l) hs)
      | some b =>
        cases b with
        | true => simp [List.mem_cons, hcomp]
        | false =>
          simp only [ihl, List.mem_cons]
          constructor
          · rintro ⟨x, hx, hx2⟩
            exact ⟨x, Or.inr hx, hx2⟩
          · rintro ⟨x, hx | hx, hx2⟩
            · rw [hx, hcomp] at hx2
              exact absurd hx2 (by simp)
            · exact ⟨x, hx, hx2⟩

lemma addon_passes_none (a : Addon) (hc : a.current_version.compat = none) :
    ∀ vs : List Version, vs ≠ [] → addon_passes a vs = none := by
  intro vs hvs
  cases vs with
  | nil => exact absurd rfl hvs
  | cons v rest =>
    rw [addon_passes]
    have : is_compatible v a.current_version = none := by rw [is_compatible, hc]
    rw [this]

lemma compatible_items_none (vs : List Version) (hvs : vs ≠ []) (a : Addon)
    (hc : a.current_version.compat = none) :
    ∀ l : List Addon, a ∈ l → compatible_items vs l = none := by
  intro l
  induction l with
  | nil => intro h; exact absurd h (List.not_mem_nil a)
  | cons x l ih =>
    intro hmem
    rw [compatible_items]
    rcases List.mem_cons.mp hmem with h | h
    · rw [← h, addon_passes_none a hc vs hvs]
    · cases hp : addon_passes x vs with
      | none => rfl
      | some b =>
        cases b with
        | true => rw [ih h]; rfl
        | false => exact ih h

lemma parse_version_eq_none (s : String) :
    parse_version s = none ↔ match_version true s.data = none := by
  cases h : match_version true s.data <;> simp [parse_version, h]

lemma crash_parse_version_eq_none (s : String) :
    crash_parse_version s = none ↔ match_version false s.data = none := by
  cases h : match_version false s.data <;> simp [crash_parse_version, h]

lemma match_version_eq_none (star : Bool) (s : List Char) :
    match_version star s = none ↔ matchNumStar star s = none := by
  cases h : matchNumStar star s <;> simp [match_version, h]

lemma takeDigits_cons_pos (c : Char) (rest : List Char) (h : c.isDigit = true) :
    takeDigits (c :: rest) = (c :: (takeDigits rest).1, (takeDigits rest).2) := by
  rw [takeDigits, if_pos h]

lemma takeDigits_cons_neg (c : Char) (rest : List Char) (h : ¬ c.isDigit = true) :
    takeDigits (c :: rest) = ([], c :: rest) := by
  rw [takeDigits, if_neg h]

lemma matchNumStar_cons_eq_none (star : Bool) (c : Char) (rest : List Char) :
    matchNumStar star (c :: rest) = none ↔
      c.isDigit = false ∧ ¬ (star = true ∧ c = '*') := by
  rw [matchNumStar]
  split
  · next h => simp [h]
  · next h =>
    by_cases hd : c.isDigit
    · simp [takeDigits_cons_pos c rest hd, hd]
    · simp [takeDigits_cons_neg c rest hd, Bool.eq_false_iff.mpr hd, h]

/-- C6: the version ordering places a release with no stage marker after
any alpha/beta or pre candidate of the same numeric components:
`parse("10.0b1") < parse("10.0")` and `parse("10.0pre1") < parse("10.0")`
under the lexicographic tuple ordering; the absent-stage marker `"z"` ranks
above `"a"`, `"b"` and `"pre"` in the code-point string order the tuple
comparison uses, so the absent-stage rank is maximal and alpha < beta < none. -/
theorem release_sorts_after_prerelease :
    parse_version "10.0b1" = some ⟨10, 0, 0, 0, "b", 1, "z", 0⟩ ∧
    parse_version "10.0pre1" = some ⟨10, 0, 0, 0, "z", 0, "pre", 1⟩ ∧
    parse_version "10.0" = some ⟨10, 0, 0, 0, "z", 0, "z", 0⟩ ∧
    verLt ⟨10, 0, 0, 0, "b", 1, "z", 0⟩ ⟨10, 0, 0, 0, "z", 0, "z", 0⟩ = true ∧
    verLt ⟨10, 0, 0, 0, "z", 0, "pre", 1⟩ ⟨10, 0, 0, 0, "z", 0, "z", 0⟩ = true ∧
    verLt ⟨10, 0, 0, 0, "a", 1, "z", 0⟩ ⟨10, 0, 0, 0, "b", 1, "z", 0⟩ = true ∧
    pyStrLt "a".data "b".data = true ∧
    pyStrLt "b".data "z".data = true ∧
    pyStrLt "pre".data "z".data = true := by
  decide

/-- C7: the wildcard segment parses to the sentinel `65535` (the maximum
16-bit part) and missing optional numeric segments default to `0`, so
`parse("*")` equals `parse("65535.0.0.0")` component-wise, and hence is
greater than or equal to it under the version ordering. -/
theorem wildcard_maps_to_sentinel :
    VERSION_PART_MAX = 65535 ∧
    parse_version "*" = some ⟨65535, 0, 0, 0, "z", 0, "z", 0⟩ ∧
    parse_version "65535.0.0.0" = some ⟨65535, 0, 0, 0, "z", 0, "z", 0⟩ ∧
    parse_version "*" = parse_version "65535.0.0.0" ∧
    verLe ⟨65535, 0, 0, 0, "z", 0, "z", 0⟩ ⟨65535, 0, 0, 0, "z", 0, "z", 0⟩ = true := by
  decide

/-- C10: version parsing fails exactly when the input's first character is
neither a decimal digit nor `*` (no `*` for the crash-stats grammar; the
empty string, having no first character, also fails); any unmatched
trailing characters after the matched prefix are silently ignored, so
`"1.2.3.4.5"` parses the same as `"1.2.3.4"` and `"1.0junk"` the same as
`"1.0"`, with no error signaled. -/
theorem parse_failure_first_char_only :
    (∀ s : String, parse_version s = none ↔
      ∀ c, s.data.head? = some c → c.isDigit = false ∧ c ≠ '*') ∧
    (∀ s : String, crash_parse_version s = none ↔
      ∀ c, s.data.head? = some c → c.isDigit = false) ∧
    parse_version "1.2.3.4.5" = parse_version "1.2.3.4" ∧
    parse_version "1.2.3.4" = some ⟨1, 2, 3, 4, "z", 0, "z", 0⟩ ∧
    parse_version "1.0junk" = parse_version "1.0" ∧
    parse_version "1.0" = some ⟨1, 0, 0, 0, "z", 0, "z", 0⟩ := by
  refine ⟨?_, ?_, by decide, by decide, by decide, by decide⟩
  · intro s
    rw [parse_version_eq_none, match_version_eq_none]
    cases hs : s.data with
    | nil => simp [matchNumStar]
    | cons c rest =>
      rw [matchNumStar_cons_eq_none]
      simp
  · intro s
    rw [crash_parse_version_eq_none, match_version_eq_none]
    cases hs : s.data with
    | nil => simp [matchNumStar]
    | cons c rest =>
      rw [matchNumStar_cons_eq_none]
      simp

/-- C10 witness: the general characterization applied at concrete inputs:
`"junk"` fails to parse and `"7rest"` does not. -/
theorem parse_failure_first_char_only_witness :
    (parse_version "junk" = none ↔
      ∀ c, ("junk".data.head? = some c) → c.isDigit = false ∧ c ≠ '*') ∧
    parse_version "junk" = none ∧
    (crash_parse_version "7rest" = none ↔
      ∀ c, ("7rest".data.head? = some c) → c.isDigit = false) ∧
    crash_parse_version "7rest" ≠ none :=
  ⟨parse_failure_first_char_only.1 "junk",
    (parse_failure_first_char_only.1 "junk").mpr (by decide),
    parse_failure_first_char_only.2.1 "7rest", by decide⟩

/-- C1: the monthly bucket enumeration loop is gap-free and covers the whole
half-open window `[start, end)`: for a start date on a month boundary (as
the code always constructs, `datetime(year - 10, 1, 1)`) the loop yields the
consecutive calendar months whose first day lies before `end`, with no gaps
(consecutiveness is the `ymIdx`/`addMonths` conjunct); when `end` is itself
the first of a month these are exactly the months from the month of `start`
up to but excluding the month of `end`, and in particular
`start = 2024-01-01`, `end = 2024-04-01` yields `[2024-01, 2024-02, 2024-03]`.
An `end` strictly inside a month additionally yields the month containing
`end`, whose truncated first day is still inside the half-open window. -/
theorem monthly_bucket_enumeration_gap_free :
    (∀ sy sm ey em ed : Nat, 1 ≤ sm → sm ≤ 12 → 1 ≤ em → em ≤ 12 →
      enumerate_dates ⟨sy, sm⟩ ⟨ey, em, ed⟩ =
        (List.range ((ey * 12 + em + (if 1 < ed then 1 else 0)) - (sy * 12 + sm))).map
          (addMonths ⟨sy, sm⟩)) ∧
    (∀ (d : YM) (i : Nat), ymIdx (addMonths d i) = ymIdx d + i) ∧
    enumerate_dates ⟨2024, 1⟩ ⟨2024, 4, 1⟩ = [⟨2024, 1⟩, ⟨2024, 2⟩, ⟨2024, 3⟩] := by
  refine ⟨?_, fun d i => ymIdx_addMonths i d, by decide⟩
  intro sy sm ey em ed h1 h2 h3 h4
  rw [enumerate_dates]
  exact enumerate_dates_fuel_eq _ _ ⟨sy, sm⟩ ⟨ey, em, ed⟩
    (by by_cases hd : 1 < ed <;> simp [ymIdx, hd] <;> omega) h1 h2 h3 h4
    (by simp [ymIdx])

/-- C1 witness: the general bucket-enumeration theorem applied at the
concrete window May 2023 to 2024-02-15 (a mid-month end). -/
theorem monthly_bucket_enumeration_gap_free_witness :
    ((1 ≤ 5 ∧ 5 ≤ 12) ∧ (1 ≤ 2 ∧ 2 ≤ 12)) ∧
    enumerate_dates ⟨2023, 5⟩ ⟨2024, 2, 15⟩ =
      (List.range ((2024 * 12 + 2 + (if 1 < 15 then 1 else 0)) - (2023 * 12 + 5))).map
        (addMonths ⟨2023, 5⟩) :=
  ⟨⟨⟨by decide, by decide⟩, ⟨by decide, by decide⟩⟩,
    monthly_bucket_enumeration_gap_free.1 2023 5 2024 2 15
      (by decide) (by decide) (by decide) (by decide)⟩

/-- C2 counterexample: a target compatible with the record's current
version, with a non-empty version history; the claim requires the
any-version check to return true, but the code evaluates only the history
entries and returns false.  Likewise for a non-empty history whose only
entry lacks the app key (zero qualifying entries): the claim requires a
fallback to the current version, but the code returns false. -/
theorem any_version_check_skips_current_cex :
    is_compatible v10 recCurrentGood.current_version = some true ∧
    recCurrentGood.versions ≠ [] ∧
    isCompatibleWithAny v10 recCurrentGood = some false ∧
    is_compatible v10 recNoQualifying.current_version = some true ∧
    recNoQualifying.versions ≠ [] ∧
    (∀ e, e ∈ recNoQualifying.versions → e.compat = none) ∧
    isCompatibleWithAny v10 recNoQualifying = some false := by
  decide

/-- C2 amended: the any-version check evaluates exactly the record's
historical version entries when the history list is non-empty (the current
version is not separately consulted), falls back to the current version
only when the fetched history list is empty (not merely when no entry
qualifies), and — when no evaluated entry faults — returns true iff some
entry declaring compatibility data for the app key is compatible with the
target. -/
theorem any_version_check_characterization :
    (∀ (v : Version) (a : Addon), a.versions ≠ [] →
      isCompatibleWithAny v a = any_compatible v a.versions) ∧
    (∀ (v : Version) (a : Addon), a.versions = [] →
      isCompatibleWithAny v a = any_compatible v [a.current_version]) ∧
    (∀ (v : Version) (l : List AVersionEntry),
      (∀ e, e ∈ l → e.compat.isSome = true → is_compatible v e ≠ none) →
      (any_compatible v l = some true ↔ ∃ e, e ∈ l ∧ is_compatible v e = some true)) := by
  refine ⟨?_, ?_, fun v l h => any_compatible_some_true v l h⟩
  · intro v a h
    rw [isCompatibleWithAny, candidate_versions, if_neg (by simpa using h)]
  · intro v a h
    rw [isCompatibleWithAny, candidate_versions, if_pos (by simpa using h)]

/-- C2 witness: the characterization applied to a singleton history whose
entry declares a wide compatibility range. -/
theorem any_version_check_characterization_witness :
    (∀ e, e ∈ [(⟨some wideRange⟩ : AVersionEntry)] → e.compat.isSome = true →
      is_compatible v10 e ≠ none) ∧
    (any_compatible v10 [⟨some wideRange⟩] = some true ↔
      ∃ e, e ∈ [(⟨some wideRange⟩ : AVersionEntry)] ∧ is_compatible v10 e = some true) :=
  ⟨by decide, any_version_check_characterization.2.2 v10 [⟨some wideRange⟩] (by decide)⟩

/-- C3 counterexample: for an empty record collection the percentage
computation raises `ZeroDivisionError` (it aborts); there is no distinct
`UndefinedRatio` marker anywhere in the code. -/
theorem zero_total_ratio_cex :
    experimental_percent [] = Except.error "ZeroDivisionError" := rfl

/-- C3 amended: every percentage is computed as `count / total` over the
exact integer counts whenever `total ≠ 0`, but `total == 0` raises a
division-by-zero fault that aborts the computation — the code has no
undefined-ratio marker, so for an empty record collection the ratio
computation does abort. -/
theorem percentage_zero_total_raises :
    (∀ addons : List Addon, addons ≠ [] →
      experimental_percent addons =
        Except.ok ((experimental_count addons : Rat) / (addons_count addons : Rat))) ∧
    (∀ count : Nat, percent_ratio count 0 = Except.error "ZeroDivisionError") := by
  constructor
  · intro addons h
    have hne : addons_count addons ≠ 0 := by
      simpa [addons_count, List.length_eq_zero] using h
    rw [experimental_percent, percent_ratio, if_neg hne]
  · intro count
    rfl

/-- C3 witness: the positive half applied to a one-record collection. -/
theorem percentage_zero_total_raises_witness :
    ([recExp] : List Addon) ≠ [] ∧
    experimental_percent [recExp] =
      Except.ok ((experimental_count [recExp] : Rat) / (addons_count [recExp] : Rat)) :=
  ⟨by decide, percentage_zero_total_raises.1 [recExp] (by decide)⟩

/-- C4 counterexample: a record without the `average_daily_users` field
makes the ranking fail (`KeyError` from `operator.itemgetter`), instead of
being ranked with the lowest possible value as the claim states. -/
theorem topn_missing_field_cex :
    recNoUsers.average_daily_users = none ∧
    top_by_users 20 [recNoUsers] = none := by
  decide

/-- C4 amended: the ranking fails (raises `KeyError`) exactly when some
record lacks the numeric field; a missing field is never treated as the
lowest possible value.  When every record carries the field, the ranking
succeeds and is the descending stable sort truncated to `n`. -/
theorem topn_missing_field_raises :
    (∀ (n : Nat) (l : List Addon),
      top_by_users n l = none ↔ ∃ a, a ∈ l ∧ a.average_daily_users = none) ∧
    (∀ (n : Nat) (l : List Addon), (∀ a, a ∈ l → a.average_daily_users ≠ none) →
      top_by_users n l = some (topN (fun a => a.average_daily_users.getD 0) n l)) := by
  constructor
  · intro n l
    constructor
    · intro hnone
      rw [top_by_users] at hnone
      cases h : collect_keys l with
      | none => exact (collect_keys_eq_none l).mp h
      | some ks => rw [h] at hnone; simp at hnone
    · intro hex
      rw [top_by_users, (collect_keys_eq_none l).mpr hex]
  · intro n l hall
    rw [top_by_users]
    cases h : collect_keys l with
    | none =>
      rcases (collect_keys_eq_none l).mp h with ⟨a, ha, hnone⟩
      exact absurd hnone (hall a ha)
    | some ks => rfl

/-- C4 witness: both halves applied at concrete inputs. -/
theorem topn_missing_field_raises_witness :
    (∀ a, a ∈ [recA, recC] → a.average_daily_users ≠ none) ∧
    top_by_users 2 [recA, recC] =
      some (topN (fun a => a.average_daily_users.getD 0) 2 [recA, recC]) :=
  ⟨by decide, topn_missing_field_raises.2 2 [recA, recC] (by decide)⟩

/-- C5 counterexample: a record whose current version lacks the app's
compatibility block makes the compatibility-based record filter raise
`KeyError` (abort), instead of excluding the record as the claim states;
the record is still counted by the unconditional total. -/
theorem missing_compat_filter_cex :
    recNoCompat.current_version.compat = none ∧
    is_compatible v10 recNoCompat.current_version = none ∧
    compatible_items [v10] [recNoCompat] = none ∧
    addons_count [recNoCompat] = 1 := by
  decide

/-- C5 amended: a version entry lacking the app's compatibility block is
skipped (excluded without failing) only in the guarded any-version path;
in the unguarded paths that evaluate the current version directly, a
missing block raises `KeyError` and aborts the record filter instead of
excluding the record.  Unconditional totals count every record regardless
of compatibility data. -/
theorem missing_compat_behavior :
    (∀ (v : Version) (e : AVersionEntry) (rest : List AVersionEntry), e.compat = none →
      any_compatible v (e :: rest) = any_compatible v rest) ∧
    (∀ (vs : List Version) (a : Addon) (l : List Addon), vs ≠ [] →
      a.current_version.compat = none → a ∈ l → compatible_items vs l = none) ∧
    (∀ l : List Addon, addons_count l = l.length) := by
  refine ⟨?_, ?_, fun l => rfl⟩
  · intro v e rest h
    simp [any_compatible, h]
  · intro vs a l hvs hc hmem
    exact compatible_items_none vs hvs a hc l hmem

/-- C5 witness: a missing-block entry is skipped by the any-version path,
and a missing current-version block aborts the record filter, at concrete
inputs. -/
theorem missing_compat_behavior_witness :
    ((⟨none⟩ : AVersionEntry).compat = none ∧
      any_compatible v10 [⟨none⟩, ⟨some wideRange⟩] =
        any_compatible v10 [⟨some wideRange⟩]) ∧
    (([v10] : List Version) ≠ [] ∧ recNoCompat.current_version.compat = none ∧
      recNoCompat ∈ [recNoCompat] ∧ compatible_items [v10] [recNoCompat] = none) :=
  ⟨⟨rfl, missing_compat_behavior.1 v10 ⟨none⟩ [⟨some wideRange⟩] rfl⟩,
    ⟨by decide, by decide, by decide,
      missing_compat_behavior.2.1 [v10] recNoCompat [recNoCompat] (by decide) (by decide)
        (by decide)⟩⟩

/-- C8: `topN` is the descending stable sort truncated to the first `n`
entries: its output is descending in the key, it is the `n`-prefix of the
full sort, the sort is a permutation (equal length) whose equal-key
subsequences appear exactly in input order (stability, hence determinism on
identical input), and on the spec's example `[{A, users 5}, {B, users 5},
{C, users 9}]` with `n = 2` it returns `[C, A]`. -/
theorem topn_descending_stable_truncated :
    (∀ (key : Addon → Int) (n : Nat) (l : List Addon),
      (topN key n l).Pairwise (fun x y => key y ≤ key x) ∧
      topN key n l = (sortDesc key l).take n ∧
      (sortDesc key l).length = l.length ∧
      (∀ k : Int, (sortDesc key l).filter (fun x => decide (key x = k)) =
        l.filter (fun x => decide (key x = k)))) ∧
    topN (fun a => a.average_daily_users.getD 0) 2 [recA, recB, recC] = [recC, recA] := by
  refine ⟨?_, by decide⟩
  intro key n l
  refine ⟨?_, rfl, sortDesc_length key l, fun k => sortDesc_filter key k l⟩
  exact List.Pairwise.sublist (List.take_sublist n (sortDesc key l)) (sortDesc_pairwise key l)

/-- C9: for every bucket, the total the report prints (`len` of the
bucket's record list) equals the number of records assigned to that bucket,
independently of the category breakdown; and because a record may carry
several categories, the sum of a bucket's per-category counts may exceed
the bucket's total, as the two-category record shows (category sum 2,
total 1). -/
theorem aggregation_total_and_category_fanout :
    (∀ (addons : List Addon) (b : YM),
      (created_buckets addons b).length =
        (addons.filter (fun a => decide (bucketOf a.created = b))).length) ∧
    (created_buckets [recTwoCats] ⟨2024, 1⟩).length = 1 ∧
    byCategory (created_buckets [recTwoCats] ⟨2024, 1⟩) "mail" +
        byCategory (created_buckets [recTwoCats] ⟨2024, 1⟩) "news" = 2 := by
  exact ⟨fun addons b => by rw [created_buckets_eq], by decide, by decide⟩
